import Mathlib

/-!
Verification of the helix view/input core (src/helix-term/src/ui/popup.rs and
src/helix-term/src/ui/editor.rs) against its natural-language specification.

Machine integers (`u16`, `usize`) are embedded as `Nat`; wrapping arithmetic is
made explicit with `% 65536` where a `u16` computation can overflow, and Rust's
`saturating_sub` on unsigned integers coincides with truncated `Nat`
subtraction.  External collaborators (the text rope, theme, keymap table,
command bodies, overlay components) are passed in as explicit parameters, as
the spec's section 6 describes them as opaque interfaces.
-/

namespace Helix

/-! ## Popup (src/helix-term/src/ui/popup.rs)

The fields of `Popup<T>` that the size/scroll protocol touches.  The generic
`contents : T` component is external; its `required_size` answer is passed as a
parameter where needed.  All fields are `u16` in the source except `scroll`,
which is `usize`. -/

structure Popup where
  marginHorizontal : Nat
  marginVertical : Nat
  sizeW : Nat
  sizeH : Nat
  childW : Nat
  childH : Nat
  scroll : Nat
deriving Repr, DecidableEq

/-- `Popup::scroll` (popup.rs lines 82-91).  `direction = true` is forward.
The source reads:
`if direction { self.scroll += offset;
   let max_offset = self.child_size.1.saturating_sub(self.size.1);
   self.scroll = (self.scroll + offset).min(max_offset as usize); }
 else { self.scroll = self.scroll.saturating_sub(offset); }` -/
def Popup.scrollBy (p : Popup) (offset : Nat) (direction : Bool) : Popup :=
  if direction then
    let s1 := p.scroll + offset
    let maxOffset := p.childH - p.sizeH
    { p with scroll := min (s1 + offset) maxOffset }
  else
    { p with scroll := p.scroll - offset }

/-- `<Popup as Component>::required_size` (popup.rs lines 135-157).
`childSize` stands for the value returned by the embedded component's
`required_size` call on the inner rectangle (an external component per the
interface contract; the popup uses the answer verbatim as `child_size`).
`width + margin*2` is a `u16` addition, hence the `% 65536`. -/
def Popup.requiredSize (p : Popup) (viewport : Nat × Nat) (childSize : Nat × Nat) : Popup :=
  let maxWidth := min 120 viewport.1
  let maxHeight := min 26 (viewport.2 - 2)
  let width := childSize.1
  let height := childSize.2
  let sizeW := min ((width + p.marginHorizontal * 2) % 65536) maxWidth
  let sizeH := min ((height + p.marginVertical * 2) % 65536) maxHeight
  let maxOffset := height - sizeH
  { p with
    childW := width, childH := height, sizeW := sizeW, sizeH := sizeH,
    scroll := min p.scroll maxOffset }

/-- C1: the claim states that a forward scroll request yields
`min(s + d, max(0, child_height - box_height))`.  The code instead adds the
delta twice (`self.scroll += offset` followed by `(self.scroll + offset)`)
before clamping: from scroll 0 with delta 3 and `max_offset = 8` it lands on
6, not the claimed 3.  This evaluates `Popup::scroll` at that failing input. -/
theorem popup_scroll_forward_double_add :
    ((Popup.mk 0 0 10 2 10 10 0).scrollBy 3 true).scroll = 6 ∧
      (6 : Nat) ≠ min (0 + 3) (max 0 (10 - 2)) := by
  decide

/-- C2: the popup state invariant is preserved.  After `required_size` the
negotiated size is componentwise at most both the viewport cap
(`min(120, vw)` / `min(26, vh - 2)`) and the child size plus margins, and the
scroll offset is at most `child_height - box_height`; and `scroll` (either
direction) keeps an in-bounds offset in bounds. -/
theorem popup_invariant_preserved (p : Popup) (viewport childSize : Nat × Nat)
    (d : Nat) (dir : Bool) :
    ((p.requiredSize viewport childSize).sizeW ≤ min 120 viewport.1 ∧
      (p.requiredSize viewport childSize).sizeW ≤ childSize.1 + p.marginHorizontal * 2 ∧
      (p.requiredSize viewport childSize).sizeH ≤ min 26 (viewport.2 - 2) ∧
      (p.requiredSize viewport childSize).sizeH ≤ childSize.2 + p.marginVertical * 2 ∧
      (p.requiredSize viewport childSize).scroll ≤
        (p.requiredSize viewport childSize).childH - (p.requiredSize viewport childSize).sizeH) ∧
    (p.scroll ≤ p.childH - p.sizeH →
      (p.scrollBy d dir).scroll ≤ (p.scrollBy d dir).childH - (p.scrollBy d dir).sizeH) := by
  constructor
  · simp only [Popup.requiredSize]
    exact ⟨min_le_right _ _, le_trans (min_le_left _ _) (Nat.mod_le _ _),
      min_le_right _ _, le_trans (min_le_left _ _) (Nat.mod_le _ _), min_le_right _ _⟩
  · intro h
    cases dir with
    | true => simp [Popup.scrollBy]
    | false =>
      simp only [Popup.scrollBy, Bool.false_eq_true, if_false]
      exact le_trans (Nat.sub_le _ _) h

/-- Witness for C2 at a concrete popup, viewport, child size and scroll delta. -/
theorem popup_invariant_preserved_witness :
    (((Popup.mk 1 1 7 4 9 11 7).requiredSize (80, 24) (9, 11)).sizeW ≤ min 120 80) ∧
    (((Popup.mk 1 1 7 4 9 11 7).scrollBy 3 false).scroll ≤
      ((Popup.mk 1 1 7 4 9 11 7).scrollBy 3 false).childH -
      ((Popup.mk 1 1 7 4 9 11 7).scrollBy 3 false).sizeH) :=
  ⟨(popup_invariant_preserved (Popup.mk 1 1 7 4 9 11 7) (80, 24) (9, 11) 3 false).1.1,
   (popup_invariant_preserved (Popup.mk 1 1 7 4 9 11 7) (80, 24) (9, 11) 3 false).2 (by decide)⟩

/-! ## Grid renderer (`EditorView::render_text_highlights`, editor.rs lines 272-369)

Grapheme segmentation (`RopeGraphemes`), line-ending detection
(`LineEnding::from_rope_slice`) and display width (`grapheme_width`) are
external `helix_core` functions; a `Source` event therefore carries the
grapheme clusters of its text slice directly, each non-special cluster with
its display width.  Styles are an opaque type `α` with the theme's `patch` /
`highlight` operations passed in as parameters. -/

/-- One grapheme cluster of a `Source` slice, as classified by the renderer:
a line-ending cluster, the tab cluster, or any other cluster together with
its display width (`grapheme_width`). -/
inductive Grapheme
  | lineEnd
  | tab
  | cluster (s : String) (w : Nat)
deriving Repr, DecidableEq

/-- `helix_core::syntax::HighlightEvent`, with `Source { start, end }` carrying
the grapheme clusters of `text.get_slice(start..end)`. -/
inductive HighlightEvent
  | highlightStart (span : Nat)
  | highlightEnd
  | source (graphemes : List Grapheme)
deriving Repr, DecidableEq

/-- Theme/style operations used by the renderer (external `Theme`). -/
structure ThemeFns (α : Type) where
  patch : α → α → α
  highlight : Nat → α
  textStyle : α

/-- Static parameters of one `render_text_highlights` call:  the scroll
offset column (`offset.col`, a `usize`), the viewport rectangle (`u16`
fields) and the document's tab width. -/
structure RenderParams where
  offsetCol : Nat
  vpX : Nat
  vpY : Nat
  vpWidth : Nat
  vpHeight : Nat
  tabWidth : Nat
deriving Repr, DecidableEq

/-- Mutable state of the render loop: the highlight span stack, the visual
column and visual line counters (`u16`), whether `break 'outer` has run, and
the `surface.set_string` calls issued so far (x, y, symbol, style). -/
structure RenderState (α : Type) where
  spans : List Nat
  visualX : Nat
  line : Nat
  stopped : Bool
  writes : List (Nat × Nat × String × α)
deriving Repr, DecidableEq

/-- `u16::saturating_add`. -/
def satAdd16 (a b : Nat) : Nat := min (a + b) 65535

/-- A string of `n` spaces (`" ".repeat(tab_width)`). -/
def spacesOf (n : Nat) : String := String.mk (List.replicate n ' ')

/-- Display width the renderer uses for a grapheme: `tab_width` for a tab,
the measured `grapheme_width` otherwise (line endings do not go through the
width path). -/
def Grapheme.width (P : RenderParams) : Grapheme → Nat
  | .lineEnd => 0
  | .tab => P.tabWidth
  | .cluster _ w => w

/-- Style of the current span stack:
`spans.iter().fold(text_style, |acc, span| acc.patch(theme.highlight(span.0)))`. -/
def stackStyle {α : Type} (Θ : ThemeFns α) (spans : List Nat) : α :=
  spans.foldl (fun acc sp => Θ.patch acc (Θ.highlight sp)) Θ.textStyle

/-- Body of the per-grapheme loop of `render_text_highlights` (editor.rs lines
310-365).  `out_of_bounds` is the `u16` test
`visual_x < offset.col as u16 || visual_x >= viewport.width + offset.col as u16`;
the `as u16` casts and the `u16` addition are the `% 65536` reductions.  A
line-ending cluster paints one styled blank cell when in bounds, resets the
column, advances the line and breaks once `line >= viewport.height`; any other
cluster paints its symbol when in bounds and advances the column with
`saturating_add`. -/
def processGrapheme {α : Type} (Θ : ThemeFns α) (P : RenderParams)
    (st : RenderState α) (g : Grapheme) : RenderState α :=
  let oobCol := P.offsetCol % 65536
  let oob : Bool := decide (st.visualX < oobCol) ||
    decide (st.visualX ≥ (P.vpWidth + oobCol) % 65536)
  match g with
  | .lineEnd =>
    let st' := if oob then st else
      { st with writes := st.writes ++
          [((P.vpX + (st.visualX - oobCol)) % 65536, (P.vpY + st.line) % 65536, " ",
            stackStyle Θ st.spans)] }
    let st' := { st' with visualX := 0, line := (st'.line + 1) % 65536 }
    if st'.line ≥ P.vpHeight then { st' with stopped := true } else st'
  | .tab =>
    let st' := if oob then st else
      { st with writes := st.writes ++
          [((P.vpX + (st.visualX - oobCol)) % 65536, (P.vpY + st.line) % 65536,
            spacesOf P.tabWidth, stackStyle Θ st.spans)] }
    { st' with visualX := satAdd16 st'.visualX (P.tabWidth % 65536) }
  | .cluster s w =>
    let st' := if oob then st else
      { st with writes := st.writes ++
          [((P.vpX + (st.visualX - oobCol)) % 65536, (P.vpY + st.line) % 65536, s,
            stackStyle Θ st.spans)] }
    { st' with visualX := satAdd16 st'.visualX (w % 65536) }

/-- One iteration of the `'outer` event loop of `render_text_highlights`:
once `break 'outer` has run, remaining events are not consumed at all;
otherwise `HighlightStart` pushes on the span stack, `HighlightEnd` pops, and
`Source` iterates the slice's grapheme clusters (stopping mid-slice when the
break fires). -/
def renderStep {α : Type} (Θ : ThemeFns α) (P : RenderParams)
    (st : RenderState α) (ev : HighlightEvent) : RenderState α :=
  if st.stopped then st else
  match ev with
  | .highlightStart sp => { st with spans := st.spans ++ [sp] }
  | .highlightEnd => { st with spans := st.spans.dropLast }
  | .source gs =>
      gs.foldl (fun s g => if s.stopped then s else processGrapheme Θ P s g) st

/-- `EditorView::render_text_highlights` as a whole: fold the event stream
from the initial state (empty span stack, visual position (0,0)). -/
def renderTextHighlights {α : Type} (Θ : ThemeFns α) (P : RenderParams)
    (events : List HighlightEvent) : RenderState α :=
  events.foldl (renderStep Θ P) ⟨[], 0, 0, false, []⟩

/-- C5: in `render_text_highlights` a tab grapheme advances the visual column
by exactly `tab_width` display columns (stated both exactly, under the
no-saturation side conditions of the `u16` counter, and in raw
`saturating_add` form), and a grapheme whose visual column lies outside
`[offset.col, offset.col + viewport.width)` writes nothing to the surface
while the column counter still advances by that grapheme's width. -/
theorem render_tab_and_out_of_bounds {α : Type} (Θ : ThemeFns α) (P : RenderParams)
    (st : RenderState α) (g : Grapheme) :
    ((processGrapheme Θ P st .tab).visualX = satAdd16 st.visualX (P.tabWidth % 65536)) ∧
    (P.tabWidth < 65536 → st.visualX + P.tabWidth ≤ 65535 →
      (processGrapheme Θ P st .tab).visualX = st.visualX + P.tabWidth) ∧
    (g ≠ .lineEnd →
      P.offsetCol + P.vpWidth < 65536 →
      (st.visualX < P.offsetCol ∨ P.offsetCol + P.vpWidth ≤ st.visualX) →
      (processGrapheme Θ P st g).writes = st.writes ∧
        (processGrapheme Θ P st g).visualX = satAdd16 st.visualX (g.width P % 65536)) := by
  have htab : (processGrapheme Θ P st .tab).visualX = satAdd16 st.visualX (P.tabWidth % 65536) := by
    simp only [processGrapheme]
    split <;> rfl
  refine ⟨htab, ?_, ?_⟩
  · intro h1 h2
    rw [htab, Nat.mod_eq_of_lt h1]
    simp only [satAdd16]
    omega
  · intro hg hw hor
    have h1 : P.offsetCol % 65536 = P.offsetCol := Nat.mod_eq_of_lt (by omega)
    have h2 : (P.vpWidth + P.offsetCol) % 65536 = P.vpWidth + P.offsetCol :=
      Nat.mod_eq_of_lt (by omega)
    have hoob : (decide (st.visualX < P.offsetCol % 65536) ||
        decide (st.visualX ≥ (P.vpWidth + P.offsetCol % 65536) % 65536)) = true := by
      rw [h1, h2, Bool.or_eq_true, decide_eq_true_iff, decide_eq_true_iff]
      omega
    cases g with
    | lineEnd => exact absurd rfl hg
    | tab =>
      constructor <;> simp only [processGrapheme, hoob, if_true, Grapheme.width]
    | cluster s w =>
      constructor <;> simp only [processGrapheme, hoob, if_true, Grapheme.width]

/-- Witness for C5 at a concrete theme, parameters, state and grapheme:
a viewport of width 4 at column offset 2, a tab of width 3 starting at visual
column 7 (out of bounds on the right). -/
theorem render_tab_and_out_of_bounds_witness :
    ((processGrapheme (ThemeFns.mk (fun a b : Nat => a + b) (fun n => n) 0)
        (RenderParams.mk 2 0 0 4 5 3) (RenderState.mk [] 7 0 false []) .tab).writes = [] ∧
      (processGrapheme (ThemeFns.mk (fun a b : Nat => a + b) (fun n => n) 0)
        (RenderParams.mk 2 0 0 4 5 3) (RenderState.mk [] 7 0 false []) .tab).visualX =
        satAdd16 7 (Grapheme.width (RenderParams.mk 2 0 0 4 5 3) .tab % 65536)) ∧
    (processGrapheme (ThemeFns.mk (fun a b : Nat => a + b) (fun n => n) 0)
        (RenderParams.mk 2 0 0 4 5 3) (RenderState.mk [] 7 0 false []) .tab).visualX = 7 + 3 :=
  ⟨(render_tab_and_out_of_bounds (ThemeFns.mk (fun a b : Nat => a + b) (fun n => n) 0)
      (RenderParams.mk 2 0 0 4 5 3) (RenderState.mk [] 7 0 false []) .tab).2.2
      (by decide) (by decide) (by decide),
   (render_tab_and_out_of_bounds (ThemeFns.mk (fun a b : Nat => a + b) (fun n => n) 0)
      (RenderParams.mk 2 0 0 4 5 3) (RenderState.mk [] 7 0 false []) .tab).2.1
      (by decide) (by decide)⟩

/-- C6: the renderer stops consuming events entirely once the visual line
counter reaches `viewport.height`: a stopped state absorbs every further
event (they are dropped, not an error), a line-ending that raises the counter
to at least `viewport.height` stops the loop, and concretely a 3-line
document rendered at viewport height 2 emits exactly the 2 visual rows 0 and
1 and ignores all remaining events. -/
theorem render_stops_at_viewport_height {α : Type} (Θ : ThemeFns α) (P : RenderParams)
    (st : RenderState α) (ev : HighlightEvent) :
    (st.stopped = true → renderStep Θ P st ev = st) ∧
    ((st.line + 1) % 65536 ≥ P.vpHeight → (processGrapheme Θ P st .lineEnd).stopped = true) ∧
    ((renderTextHighlights (ThemeFns.mk (fun a b : Nat => a + b) (fun n => n) 0)
        (RenderParams.mk 0 0 0 10 2 4)
        [.source [.cluster "a" 1, .lineEnd, .cluster "b" 1, .lineEnd,
          .cluster "c" 1, .lineEnd]]).line = 2 ∧
      (renderTextHighlights (ThemeFns.mk (fun a b : Nat => a + b) (fun n => n) 0)
        (RenderParams.mk 0 0 0 10 2 4)
        [.source [.cluster "a" 1, .lineEnd, .cluster "b" 1, .lineEnd,
          .cluster "c" 1, .lineEnd]]).stopped = true ∧
      (renderTextHighlights (ThemeFns.mk (fun a b : Nat => a + b) (fun n => n) 0)
        (RenderParams.mk 0 0 0 10 2 4)
        [.source [.cluster "a" 1, .lineEnd, .cluster "b" 1, .lineEnd,
          .cluster "c" 1, .lineEnd]]).writes.map (fun w => w.2.1) = [0, 0, 1, 1] ∧
      renderTextHighlights (ThemeFns.mk (fun a b : Nat => a + b) (fun n => n) 0)
        (RenderParams.mk 0 0 0 10 2 4)
        ([.source [.cluster "a" 1, .lineEnd, .cluster "b" 1, .lineEnd,
          .cluster "c" 1, .lineEnd]] ++
          [.source [.cluster "d" 1, .lineEnd], .highlightStart 5]) =
        renderTextHighlights (ThemeFns.mk (fun a b : Nat => a + b) (fun n => n) 0)
          (RenderParams.mk 0 0 0 10 2 4)
          [.source [.cluster "a" 1, .lineEnd, .cluster "b" 1, .lineEnd,
            .cluster "c" 1, .lineEnd]]) := by
  refine ⟨?_, ?_, by decide⟩
  · intro h
    simp [renderStep, h]
  · intro h
    simp only [processGrapheme]
    split <;> simp_all

/-- Witness for C6: a stopped state with one pending event, and a line-ending
crossing the height threshold, at concrete inputs. -/
theorem render_stops_at_viewport_height_witness :
    (renderStep (ThemeFns.mk (fun a b : Nat => a + b) (fun n => n) 0)
        (RenderParams.mk 0 0 0 10 2 4) (RenderState.mk [] 3 2 true []) (.highlightStart 1) =
      RenderState.mk [] 3 2 true []) ∧
    (processGrapheme (ThemeFns.mk (fun a b : Nat => a + b) (fun n => n) 0)
        (RenderParams.mk 0 0 0 10 2 4) (RenderState.mk [] 3 1 false []) .lineEnd).stopped =
      true :=
  ⟨(render_stops_at_viewport_height (ThemeFns.mk (fun a b : Nat => a + b) (fun n => n) 0)
      (RenderParams.mk 0 0 0 10 2 4) (RenderState.mk [] 3 2 true [])
      (.highlightStart 1)).1 rfl,
   (render_stops_at_viewport_height (ThemeFns.mk (fun a b : Nat => a + b) (fun n => n) 0)
      (RenderParams.mk 0 0 0 10 2 4) (RenderState.mk [] 3 1 false [])
      (.highlightStart 1)).2.1 (by decide)⟩

/-! ## Selection highlights (`EditorView::doc_selection_highlights`, editor.rs
lines 194-270) -/

/-- `helix_core::Range`: a selection range with `anchor` and `head` char
indices. -/
structure SRange where
  anchor : Nat
  head : Nat
deriving Repr, DecidableEq

/-- External inputs of `doc_selection_highlights`: the rope length
(`text.len_chars()`), the `helix_core` grapheme-boundary helpers and
`Range::min_width_1` (external to src/), the theme scope indices resolved with
their fallback chains at editor.rs lines 208-227, the block-cursor test
(line 206) and the primary selection index. -/
structure SelectionParams where
  lenChars : Nat
  prevGraphemeBoundary : Nat → Nat
  nextGraphemeBoundary : Nat → Nat
  minWidth1 : SRange → SRange
  cursorScope : Nat
  selectionScope : Nat
  primaryCursorScope : Nat
  primarySelectionScope : Nat
  cursorIsBlock : Bool
  primaryIdx : Nat

/-- Body of the per-range loop of `doc_selection_highlights` (editor.rs lines
230-267): the spans pushed for the `i`-th selection range.  The first branch
is the end-of-rope special case (`range.head == range.anchor && range.head ==
text.len_chars()`); otherwise the range is widened with `min_width_1` and the
forward/reverse cases emit selection and cursor spans, the cursor span
suppressed for the primary selection unless the cursor is a block. -/
def selectionSpansForRange (P : SelectionParams) (i : Nat) (r : SRange) :
    List (Nat × Nat × Nat) :=
  let cursorScope := if i = P.primaryIdx then P.primaryCursorScope else P.cursorScope
  let selectionScope := if i = P.primaryIdx then P.primarySelectionScope else P.selectionScope
  if r.head = r.anchor ∧ r.head = P.lenChars then
    if i ≠ P.primaryIdx ∨ P.cursorIsBlock then [(cursorScope, r.head, r.head + 1)] else []
  else
    let r' := P.minWidth1 r
    if r'.anchor < r'.head then
      let cursorStart := P.prevGraphemeBoundary r'.head
      [(selectionScope, r'.anchor, cursorStart)] ++
        (if i ≠ P.primaryIdx ∨ P.cursorIsBlock then
          [(cursorScope, cursorStart, r'.head)] else [])
    else
      let cursorEnd := P.nextGraphemeBoundary r'.head
      (if i ≠ P.primaryIdx ∨ P.cursorIsBlock then
        [(cursorScope, r'.head, cursorEnd)] else []) ++
        [(selectionScope, cursorEnd, r'.anchor)]

/-- `EditorView::doc_selection_highlights`: the spans of all selection ranges
in order (the source pushes into one `spans` vector while iterating
`selection.iter().enumerate()`). -/
def docSelectionHighlights (P : SelectionParams) (ranges : List SRange) :
    List (Nat × Nat × Nat) :=
  (ranges.enum.map (fun p => selectionSpansForRange P p.1 p.2)).flatten

/-- C4: a zero-width selection range sitting at the end of the text
(`head = anchor = len_chars`) contributes exactly one cursor span
`head..head+1` of length 1, except that the span is suppressed when the range
is primary and the cursor kind is not block; and `doc_selection_highlights`
is exactly the concatenation of these per-range contributions. -/
theorem end_of_text_cursor_span (P : SelectionParams) (i : Nat) (r : SRange)
    (hh : r.head = r.anchor) (hl : r.head = P.lenChars) :
    ((i ≠ P.primaryIdx ∨ P.cursorIsBlock = true) →
      selectionSpansForRange P i r =
        [((if i = P.primaryIdx then P.primaryCursorScope else P.cursorScope),
          P.lenChars, P.lenChars + 1)]) ∧
    (i = P.primaryIdx → P.cursorIsBlock = false →
      selectionSpansForRange P i r = []) ∧
    (∀ ranges : List SRange,
      docSelectionHighlights P ranges =
        (ranges.enum.map (fun p => selectionSpansForRange P p.1 p.2)).flatten) := by
  refine ⟨?_, ?_, fun _ => rfl⟩
  · intro hc
    simp only [selectionSpansForRange, if_pos (And.intro hh hl)]
    rw [if_pos]
    · rw [hl]
    · simpa using hc
  · intro hp hb
    simp only [selectionSpansForRange, if_pos (And.intro hh hl)]
    rw [if_neg]
    simp [hp, hb]

/-- Witness for C4: a document of length 5, primary index 0 with a
non-block cursor; the end-of-text range as the non-primary range 1 yields the
single span, and as the primary range 0 yields nothing. -/
theorem end_of_text_cursor_span_witness :
    selectionSpansForRange
      (SelectionParams.mk 5 (fun n => n - 1) (fun n => n + 1) (fun r => r) 1 2 3 4 false 0)
      1 (SRange.mk 5 5) = [(1, 5, 6)] ∧
    selectionSpansForRange
      (SelectionParams.mk 5 (fun n => n - 1) (fun n => n + 1) (fun r => r) 1 2 3 4 false 0)
      0 (SRange.mk 5 5) = [] := by
  constructor
  · have h := (end_of_text_cursor_span
      (SelectionParams.mk 5 (fun n => n - 1) (fun n => n + 1) (fun r => r) 1 2 3 4 false 0)
      1 (SRange.mk 5 5) rfl rfl).1 (Or.inl (by decide))
    simpa using h
  · exact (end_of_text_cursor_span
      (SelectionParams.mk 5 (fun n => n - 1) (fun n => n + 1) (fun r => r) 1 2 3 4 false 0)
      0 (SRange.mk 5 5) rfl rfl).2.1 rfl rfl

/-! ## Statusline diagnostic indicators (`EditorView::render_statusline`,
editor.rs lines 559-586) -/

/-- `helix_core::diagnostic::Severity`.  A diagnostic's severity is optional
(`Option<Severity>`). -/
inductive Severity
  | Hint
  | Info
  | Warning
  | Error
deriving Repr, DecidableEq

/-- Style of a statusline span: the warning or error style patched onto the
base style, or the base style itself. -/
inductive StatusStyle
  | warning
  | error
  | base
deriving Repr, DecidableEq

/-- Body of the fold at editor.rs lines 560-568:
`Some(Warning)` bumps the first counter, `Some(Error) | None` the second,
everything else (`Some(Info)`, `Some(Hint)`) is ignored by the wildcard arm. -/
def diagStep (counts : Nat × Nat) (diag : Option Severity) : Nat × Nat :=
  match diag with
  | some .Warning => (counts.1 + 1, counts.2)
  | some .Error => (counts.1, counts.2 + 1)
  | none => (counts.1, counts.2 + 1)
  | _ => counts

/-- The `(warnings, errors)` pair the statusline folds out of
`doc.diagnostics()`. -/
def statuslineDiagCounts (diags : List (Option Severity)) : Nat × Nat :=
  diags.foldl diagStep (0, 0)

/-- The indicator spans pushed by the loop at editor.rs lines 572-586,
unrolled over its two iterations (`i = 0`: warnings, `i = 1`: errors); a
bucket whose count is 0 is skipped (`continue`), otherwise a bullet in the
severity style and the count in the base style are pushed. -/
def statuslineDiagSpans (diags : List (Option Severity)) : List (String × StatusStyle) :=
  let counts := statuslineDiagCounts diags
  (if counts.1 = 0 then [] else
    [("●", StatusStyle.warning), (" " ++ toString counts.1 ++ " ", StatusStyle.base)]) ++
  (if counts.2 = 0 then [] else
    [("●", StatusStyle.error), (" " ++ toString counts.2 ++ " ", StatusStyle.base)])

/-- A diagnostic that the statusline buckets as an error: explicit `Error`
severity or no severity at all. -/
def errorLike : Option Severity → Bool
  | some .Error => true
  | none => true
  | _ => false

theorem diagCounts_foldl (diags : List (Option Severity)) : ∀ a b : Nat,
    diags.foldl diagStep (a, b) =
      (a + diags.count (some .Warning), b + (diags.filter errorLike).length) := by
  induction diags with
  | nil => intro a b; simp
  | cons d tl ih =>
    intro a b
    cases d with
    | none =>
      simp only [List.foldl_cons, diagStep, List.count_cons, List.filter, errorLike, ih]
      rw [Prod.ext_iff]
      refine ⟨by simp +arith, by simp +arith⟩
    | some s =>
      cases s <;>
        · simp only [List.foldl_cons, diagStep, List.count_cons, List.filter, errorLike, ih]
          rw [Prod.ext_iff]
          refine ⟨by simp +arith, by simp +arith⟩

/-- C8 counterexample: a document whose only diagnostic has severity `Info`
has a nonzero `Info` count, yet the statusline renders no indicator at all —
the fold's wildcard arm drops `Info` (and `Hint`) diagnostics, so it is not
true that every severity with a nonzero count is shown. -/
theorem statusline_info_diagnostic_not_shown :
    ([some Severity.Info] : List (Option Severity)).count (some Severity.Info) = 1 ∧
    statuslineDiagSpans [some Severity.Info] = [] := by
  decide

/-- C8 amended: the statusline buckets diagnostics into warnings
(`Some(Warning)`) and errors (`Some(Error)` or severity-less), suppressing a
bucket whose count is zero and otherwise showing exactly that count; `Info`
and `Hint` diagnostics produce no indicator. -/
theorem statusline_diag_spans_amended (diags : List (Option Severity)) :
    statuslineDiagCounts diags =
      (diags.count (some .Warning), (diags.filter errorLike).length) ∧
    statuslineDiagSpans diags =
      (if diags.count (some .Warning) = 0 then [] else
        [("●", StatusStyle.warning),
         (" " ++ toString (diags.count (some .Warning)) ++ " ", StatusStyle.base)]) ++
      (if (diags.filter errorLike).length = 0 then [] else
        [("●", StatusStyle.error),
         (" " ++ toString ((diags.filter errorLike).length) ++ " ", StatusStyle.base)]) := by
  have h : statuslineDiagCounts diags =
      (diags.count (some .Warning), (diags.filter errorLike).length) := by
    simpa using diagCounts_foldl diags 0 0
  exact ⟨h, by rw [statuslineDiagSpans, h]⟩

/-! ## Input dispatcher (`EditorView`, editor.rs lines 33-56 and 668-790, and
`<EditorView as Component>::handle_event`, lines 943-1070)

Command bodies, the keymap table, completion overlays and one-shot next-key
handlers are external per the spec's section 6; they appear as the type
parameters `Cmd`, `K` (keymap-table state, holding the pending key sequence),
`Cpl` (completion overlay state) and `H` (one-shot handler), with their
operations collected in `Ext`. -/

/-- `helix_view::document::Mode`. -/
inductive Mode
  | Normal
  | Insert
  | Select
deriving Repr, DecidableEq

/-- `helix_view::keyboard::KeyCode`, reduced to what the dispatcher
distinguishes: printable characters versus everything else. -/
inductive KeyCode
  | char (c : Char)
  | esc
  | other (n : Nat)
deriving Repr, DecidableEq

/-- `helix_view::input::KeyEvent`: a key code plus modifier flags. -/
structure Key where
  code : KeyCode
  shift : Bool
  ctrl : Bool
  alt : Bool
deriving Repr, DecidableEq

/-- `canonicalize_key` (editor.rs lines 1174-1182): drop the SHIFT modifier
from character keys. -/
def canonicalizeKey (k : Key) : Key :=
  match k.code with
  | .char _ => { k with shift := false }
  | _ => k

/-- `KeyEvent::char`: the character of a `Char` key code. -/
def Key.charVal (k : Key) : Option Char :=
  match k.code with
  | .char c => some c
  | _ => none

/-- The `key!(c)` pattern: character `c` with no modifiers. -/
def unmodifiedChar (k : Key) : Option Char :=
  match k.code with
  | .char c => if k.shift || k.ctrl || k.alt then none else some c
  | _ => none

/-- The `key!(i @ char ranging over the decimal digits)` pattern of
`command_mode` (editor.rs line 725) together with `i.to_digit(10)`. -/
def digitOf (k : Key) : Option Nat :=
  match unmodifiedChar k with
  | some c => if '0' ≤ c ∧ c ≤ '9' then some (c.toNat - Char.toNat '0') else none
  | none => none

/-- `std::num::NonZeroUsize::new`. -/
def nonZeroNew (n : Nat) : Option Nat :=
  if n = 0 then none else some n

/-- `crate::keymap::KeymapResultKind`. -/
inductive KeymapResultKind (Cmd : Type)
  | Matched (cmd : Cmd)
  | Pending
  | MatchedSequence (cmds : List Cmd)
  | NotFound
  | Cancelled (buffered : List Key)
deriving Repr, DecidableEq

/-- The editor/document state the dispatcher touches.  `count` mirrors
`editor.count : Option<NonZeroUsize>`; `historyCommits` counts the history
checkpoints committed by `Document::append_changes_to_history` (modelled from
the spec, see `appendChangesToHistory`); `views` holds `(view id, scroll
row)` pairs of the view tree; `focus` is `editor.tree.focus`. -/
structure EditorSt where
  mode : Mode
  count : Option Nat
  selectedRegister : Option Char
  statusMsg : Bool
  autoinfo : Bool
  savepoint : Bool
  historyCommits : Nat
  closeRequested : Bool
  idleTimer : Bool
  focus : Nat
  views : List (Nat × Nat)
  scrollLines : Int
deriving Repr, DecidableEq

/-- `commands::Context`: the editor plus the per-invocation count, register,
deferred-callback flag and one-shot next-key registration a command may
set. -/
structure CmdCtx (H : Type) where
  editor : EditorSt
  count : Option Nat
  register : Option Char
  onNextKeyCb : Option H
  callbackSet : Bool
deriving Repr, DecidableEq

/-- The `EditorView` fields the dispatcher owns: the keymap-table state, the
optional one-shot handler, `last_insert` split into its command and replayed
key-sequence components, and the completion overlay. -/
structure ViewSt (Cmd K Cpl H : Type) where
  keymaps : K
  onNextKey : Option H
  lastInsertCmd : Cmd
  lastInsertKeys : List Key
  completion : Option Cpl
deriving Repr, DecidableEq

/-- Operations of the external collaborators (spec section 6).
`keymapGet mode k ev` performs the stateful `self.keymaps.get_mut(&mode)
.unwrap().get(ev)`, returning the result kind, whether the result carries a
sticky info box, and the updated keymap state; `keymapPending` is
`self.keymaps.pending()`.  `exec` runs a command body; `insertChar` is
`commands::insert::insert_char`; `runHandler` invokes a one-shot `on_next_key`
closure.  `cplHandleEvent` is the completion overlay's `handle_event` under
the fake compositor context of editor.rs lines 987-992 (`none` = `Ignored`,
`some b` = `Consumed` with `b` recording whether a close callback was
returned); `cplUpdate` is `completion.update(&mut cx)`; `cplIsEmpty` is
`completion.is_empty()`.  `ensureViews` is `view.ensure_cursor_in_view`,
which only adjusts view scroll positions. -/
structure Ext (Cmd K Cpl H : Type) where
  keymapGet : Mode → K → Key → KeymapResultKind Cmd × Bool × K
  keymapPending : K → List Key
  exec : Cmd → CmdCtx H → CmdCtx H
  insertChar : Char → CmdCtx H → CmdCtx H
  runHandler : H → CmdCtx H → Key → CmdCtx H
  cplHandleEvent : Cpl → Key → EditorSt → Cpl × EditorSt × Option Bool
  cplUpdate : Cpl → CmdCtx H → Cpl × CmdCtx H
  cplIsEmpty : Cpl → Bool
  ensureViews : EditorSt → List (Nat × Nat)

/-- Modelled from the spec: `Document::append_changes_to_history` (a
`helix_view` method not under src/) commits the pending document changes as a
history checkpoint. -/
def appendChangesToHistory (ed : EditorSt) : EditorSt :=
  { ed with historyCommits := ed.historyCommits + 1 }

/-- `EditorView::clear_completion` (editor.rs lines 782-789): drop the
overlay, clear the document savepoint and the idle timer. -/
def clearCompletion {Cmd K Cpl H : Type} (vs : ViewSt Cmd K Cpl H) (ed : EditorSt) :
    ViewSt Cmd K Cpl H × EditorSt :=
  ({ vs with completion := none }, { ed with savepoint := false, idleTimer := false })

/-- `EditorView::handle_keymap_event` (editor.rs lines 672-693): clear then
re-set the sticky info box, resolve the key through the mode's keymap,
execute a `Matched` command or each command of a `MatchedSequence`, surface a
`Pending` info box, and hand `NotFound`/`Cancelled` back to the caller. -/
def handleKeymapEvent {Cmd K Cpl H : Type} (E : Ext Cmd K Cpl H) (mode : Mode)
    (vs : ViewSt Cmd K Cpl H) (cxt : CmdCtx H) (ev : Key) :
    ViewSt Cmd K Cpl H × CmdCtx H × Option (KeymapResultKind Cmd) :=
  let cxt := { cxt with editor := { cxt.editor with autoinfo := false } }
  let res := E.keymapGet mode vs.keymaps ev
  let vs := { vs with keymaps := res.2.2 }
  let cxt := { cxt with editor := { cxt.editor with autoinfo := res.2.1 } }
  match res.1 with
  | .Matched cmd => (vs, E.exec cmd cxt, none)
  | .Pending => (vs, { cxt with editor := { cxt.editor with autoinfo := true } }, none)
  | .MatchedSequence cmds => (vs, cmds.foldl (fun c cmd => E.exec cmd c) cxt, none)
  | .NotFound => (vs, cxt, some .NotFound)
  | .Cancelled buffered => (vs, cxt, some (.Cancelled buffered))

/-- `EditorView::insert_mode` (editor.rs lines 695-720): resolve through the
Insert keymap; on `NotFound` insert the literal character (if any); on
`Cancelled` replay each buffered key, inserting printable characters
literally and re-resolving the rest against the Insert keymap. -/
def insertModeStep {Cmd K Cpl H : Type} (E : Ext Cmd K Cpl H)
    (vs : ViewSt Cmd K Cpl H) (cxt : CmdCtx H) (ev : Key) :
    ViewSt Cmd K Cpl H × CmdCtx H :=
  match handleKeymapEvent E .Insert vs cxt ev with
  | (vs, cxt, some (.NotFound)) =>
      match ev.charVal with
      | some ch => (vs, E.insertChar ch cxt)
      | none => (vs, cxt)
  | (vs, cxt, some (.Cancelled buffered)) =>
      buffered.foldl (fun p k =>
        match k.charVal with
        | some ch => (p.1, E.insertChar ch p.2)
        | none =>
          let res := E.keymapGet .Insert p.1.keymaps k
          let vs' := { p.1 with keymaps := res.2.2 }
          match res.1 with
          | .Matched cmd => (vs', E.exec cmd p.2)
          | _ => (vs', p.2)) (vs, cxt)
  | (vs, cxt, _) => (vs, cxt)

/-- `EditorView::command_mode` (editor.rs lines 722-755): an unmodified digit
key accumulates the repeat count through `NonZeroUsize::new`; the repeat
operator (an unmodified dot with no pending key sequence) re-executes the
recorded last-insert command and replays its recorded keys through the Insert
path; any other key copies count/register into the invocation context
(taking the selected register), resolves through the mode keymap, and clears
the accumulated count once no sequence remains pending. -/
def commandModeStep {Cmd K Cpl H : Type} (E : Ext Cmd K Cpl H) (mode : Mode)
    (vs : ViewSt Cmd K Cpl H) (cxt : CmdCtx H) (ev : Key) :
    ViewSt Cmd K Cpl H × CmdCtx H :=
  match digitOf ev with
  | some i =>
      let v := match cxt.editor.count with
        | none => i
        | some c => c * 10 + i
      (vs, { cxt with editor := { cxt.editor with count := nonZeroNew v } })
  | none =>
      if unmodifiedChar ev = some '.' ∧ E.keymapPending vs.keymaps = [] then
        let cxt := E.exec vs.lastInsertCmd cxt
        vs.lastInsertKeys.foldl (fun p k => insertModeStep E p.1 p.2 k) (vs, cxt)
      else
        let cxt := { cxt with count := cxt.editor.count }
        let cxt := { cxt with
          register := cxt.editor.selectedRegister,
          editor := { cxt.editor with selectedRegister := none } }
        let r := handleKeymapEvent E mode vs cxt ev
        let vs := r.1
        let cxt := r.2.1
        if E.keymapPending vs.keymaps = [] then
          (vs, { cxt with editor := { cxt.editor with count := none } })
        else (vs, cxt)

/-- The dispatch phase of `handle_event` for a key event (editor.rs lines
964-1024): reset the idle timer, canonicalize the key, clear the status
message, then route the event to the one-shot handler if registered, else to
the Insert path (record the key in the replay buffer, offer the raw event to
the completion overlay, fall through to `insert_mode` and re-measure or close
the overlay) or to `command_mode`; finally move the context's one-shot
registration into the view. -/
def dispatchKey {Cmd K Cpl H : Type} (E : Ext Cmd K Cpl H)
    (vs : ViewSt Cmd K Cpl H) (ed : EditorSt) (k : Key) :
    ViewSt Cmd K Cpl H × CmdCtx H :=
  let key := canonicalizeKey k
  let cx : CmdCtx H := ⟨{ ed with idleTimer := true, statusMsg := false }, none, none, none, false⟩
  let mode := cx.editor.mode
  let p :=
    match vs.onNextKey with
    | some h => ({ vs with onNextKey := none }, E.runHandler h cx key)
    | none =>
      match mode with
      | .Insert =>
        let vs := { vs with lastInsertKeys := vs.lastInsertKeys ++ [key] }
        let q :=
          match vs.completion with
          | some cpl =>
            let r := E.cplHandleEvent cpl k cx.editor
            let vs := { vs with completion := some r.1 }
            let cx := { cx with editor := r.2.1 }
            match r.2.2 with
            | some cbPresent =>
              if cbPresent then
                let c := clearCompletion vs cx.editor
                (c.1, { cx with editor := c.2 }, true)
              else (vs, cx, true)
            | none => (vs, cx, false)
          | none => (vs, cx, false)
        if q.2.2 then (q.1, q.2.1)
        else
          let r := insertModeStep E q.1 q.2.1 key
          match r.1.completion with
          | some cpl =>
            let u := E.cplUpdate cpl r.2
            let vs := { r.1 with completion := some u.1 }
            let cx := u.2
            if E.cplIsEmpty u.1 then
              let c := clearCompletion vs cx.editor
              (c.1, { cx with editor := c.2 })
            else (vs, cx)
          | none => r
      | m => commandModeStep E m vs cx key
  ({ p.1 with onNextKey := p.2.onNextKeyCb }, p.2)

/-- `compositor::EventResult`, with `consumed b` recording whether a deferred
callback was attached. -/
inductive EvtResult
  | consumed (cb : Bool)
  | ignored
deriving Repr, DecidableEq

/-- The bookkeeping phase of `handle_event` for a key event (editor.rs lines
1026-1065): bail out (skipping all bookkeeping) when the command consumed
the last view, ensure the cursor is in view, commit pending changes to
history while not in Insert mode, and apply the mode-transition side
effects — Normal→Insert re-resolves the key to record the triggering command
(`none` models the `unimplemented!()` panic when it is not `Matched`) and
clears the replay buffer, Insert→Normal drops the completion overlay. -/
def postKey {Cmd K Cpl H : Type} (E : Ext Cmd K Cpl H) (mode : Mode) (key : Key)
    (vs : ViewSt Cmd K Cpl H) (cx : CmdCtx H) :
    Option (ViewSt Cmd K Cpl H × EditorSt × EvtResult) :=
  let callback := cx.callbackSet
  if cx.editor.closeRequested then some (vs, cx.editor, .ignored)
  else
    let ed := { cx.editor with views := E.ensureViews cx.editor }
    let ed := if ed.mode ≠ .Insert then appendChangesToHistory ed else ed
    match mode, ed.mode with
    | .Normal, .Insert =>
        let res := E.keymapGet .Normal vs.keymaps key
        match res.1 with
        | .Matched cmd =>
            some ({ vs with keymaps := res.2.2, lastInsertCmd := cmd, lastInsertKeys := [] },
              ed, .consumed callback)
        | _ => none
    | .Insert, .Normal =>
        some ({ vs with completion := none }, ed, .consumed callback)
    | _, _ => some (vs, ed, .consumed callback)

/-- `<EditorView as Component>::handle_event` for `Event::Key` (editor.rs
lines 964-1066): the dispatch phase followed by the bookkeeping phase.
`none` models the `unimplemented!()` panic of line 1054. -/
def handleKeyEvent {Cmd K Cpl H : Type} (E : Ext Cmd K Cpl H)
    (vs : ViewSt Cmd K Cpl H) (ed : EditorSt) (k : Key) :
    Option (ViewSt Cmd K Cpl H × EditorSt × EvtResult) :=
  let p := dispatchKey E vs ed k
  postKey E ed.mode (canonicalizeKey k) p.1 p.2

/-! ## Mouse router, wheel-scroll arm (`EditorView::handle_mouse_event`,
editor.rs lines 851-881) -/

/-- `helix_core::movement::Direction`. -/
inductive Direction
  | Backward
  | Forward
deriving Repr, DecidableEq

/-- A `MouseEvent` with kind `ScrollUp` or `ScrollDown`. -/
structure MouseScrollEvent where
  up : Bool
  row : Nat
  col : Nat
deriving Repr, DecidableEq

/-- Modelled from the spec: `commands::scroll` (in helix-term's commands
module, not under src/) scrolls the currently focused view by the given
number of lines in the given direction ("Wheel scroll scrolls whichever view
is under the pointer" combined with the command acting on the focused
view). -/
def scrollCommand (ed : EditorSt) (offset : Nat) (d : Direction) : EditorSt :=
  { ed with views := ed.views.map (fun v =>
      if v.1 = ed.focus then
        (v.1, match d with | .Backward => v.2 - offset | .Forward => v.2 + offset)
      else v) }

/-- The `ScrollUp | ScrollDown` arm of `EditorView::handle_mouse_event`:
remember the focused view, map the wheel direction, hit-test all views in
order for the pointer position (`hitTest vid row col` models the external
`View::pos_at_screen_coords`), bail out as `Ignored` when no view is hit,
otherwise focus the hit view, scroll by `config.scroll_lines.abs()` lines,
and restore the previously focused view.  The returned `Bool` is `true` for
`EventResult::Consumed`. -/
def handleMouseScroll (hitTest : Nat → Nat → Nat → Option (Nat × Nat))
    (ed : EditorSt) (ev : MouseScrollEvent) : EditorSt × Bool :=
  let currentView := ed.focus
  let dir := if ev.up then Direction.Backward else Direction.Forward
  let result := (ed.views.map Prod.fst).findSome?
    (fun vid => (hitTest vid ev.row ev.col).map (fun _ => vid))
  match result with
  | none => (ed, false)
  | some vid =>
    let ed := { ed with focus := vid }
    let offset := ed.scrollLines.natAbs
    let ed := scrollCommand ed offset dir
    let ed := { ed with focus := currentView }
    (ed, true)

/-- Editor state after `command_mode` handles one digit key: idle timer
reset, status message cleared, count accumulated through
`NonZeroUsize::new`. -/
def digitEditor (ed : EditorSt) (d : Nat) : EditorSt :=
  { ed with
    idleTimer := true, statusMsg := false,
    count := nonZeroNew (match ed.count with | none => d | some k => k * 10 + d) }

theorem dispatchKey_digit {Cmd K Cpl H : Type} (E : Ext Cmd K Cpl H)
    (vs : ViewSt Cmd K Cpl H) (ed : EditorSt) (c : Char) (d : Nat)
    (hm : ed.mode = .Normal ∨ ed.mode = .Select)
    (hn : vs.onNextKey = none)
    (hd : digitOf (Key.mk (.char c) false false false) = some d) :
    dispatchKey E vs ed (Key.mk (.char c) false false false) =
      (vs, ⟨digitEditor ed d, none, none, none, false⟩) := by
  have hcanon : canonicalizeKey (Key.mk (.char c) false false false) =
      Key.mk (.char c) false false false := rfl
  rcases hm with hm | hm <;>
  · simp only [dispatchKey, hcanon, hn, hm, commandModeStep, hd, digitEditor]
    cases vs
    simp_all

theorem postKey_nonInsert {Cmd K Cpl H : Type} (E : Ext Cmd K Cpl H)
    (mode : Mode) (key : Key) (vs : ViewSt Cmd K Cpl H) (cx : CmdCtx H)
    (hm : cx.editor.mode = mode) (hmode : mode = .Normal ∨ mode = .Select)
    (hc : cx.editor.closeRequested = false) :
    postKey E mode key vs cx =
      some (vs, appendChangesToHistory { cx.editor with views := E.ensureViews cx.editor },
        .consumed cx.callbackSet) := by
  rcases hmode with hmode | hmode <;>
  · subst hmode
    simp only [postKey, hc, hm]
    simp [hm, appendChangesToHistory]

theorem handleKeyEvent_digit {Cmd K Cpl H : Type} (E : Ext Cmd K Cpl H)
    (vs : ViewSt Cmd K Cpl H) (ed : EditorSt) (c : Char) (d : Nat)
    (hm : ed.mode = .Normal ∨ ed.mode = .Select)
    (hn : vs.onNextKey = none)
    (hc : ed.closeRequested = false)
    (hd : digitOf (Key.mk (.char c) false false false) = some d) :
    handleKeyEvent E vs ed (Key.mk (.char c) false false false) =
      some (vs,
        appendChangesToHistory
          { digitEditor ed d with views := E.ensureViews (digitEditor ed d) },
        .consumed false) := by
  simp only [handleKeyEvent, dispatchKey_digit E vs ed c d hm hn hd]
  exact postKey_nonInsert E ed.mode (canonicalizeKey (Key.mk (.char c) false false false))
    vs ⟨digitEditor ed d, none, none, none, false⟩ rfl hm hc

/-- A trivial instantiation of the external collaborators over `Unit`:
every keymap lookup misses, commands are no-ops, the completion overlay
ignores and reports empty, and `ensure_cursor_in_view` moves nothing. -/
def extUnit : Ext Unit Unit Unit Unit where
  keymapGet := fun _ _ _ => (.NotFound, false, ())
  keymapPending := fun _ => []
  exec := fun _ c => c
  insertChar := fun _ c => c
  runHandler := fun _ c _ => c
  cplHandleEvent := fun _ _ e => ((), e, none)
  cplUpdate := fun _ c => ((), c)
  cplIsEmpty := fun _ => true
  ensureViews := fun e => e.views

/-- A sample editor state: Normal mode, nothing accumulated, one view. -/
def edSample : EditorSt :=
  ⟨.Normal, none, none, false, false, false, 0, false, false, 0, [(0, 0)], 3⟩

/-- A sample `EditorView` state over the `Unit` collaborators. -/
def vsUnit : ViewSt Unit Unit Unit Unit := ⟨(), none, (), [], none⟩

/-- C3 counterexample: the repeat operator is a non-digit key; dispatched
through `command_mode` with no multi-key sequence pending it re-executes the
recorded last-insert command but leaves the accumulated count untouched
(`command_mode`'s dot arm never writes `cxt.editor.count`), so the count is
not cleared by every non-digit key. -/
theorem repeat_operator_preserves_count :
    digitOf (Key.mk (.char '.') false false false) = none ∧
    extUnit.keymapPending vsUnit.keymaps = [] ∧
    (commandModeStep extUnit .Normal vsUnit
      ⟨{ edSample with count := some 123 }, none, none, none, false⟩
      (Key.mk (.char '.') false false false)).2.editor.count = some 123 ∧
    (some 123 : Option Nat) ≠ none := by
  decide

/-- One key press at the `handle_event` level, keeping the view and editor
states for chaining (`none` when the dispatch panics). -/
def pressKey {Cmd K Cpl H : Type} (E : Ext Cmd K Cpl H)
    (p : ViewSt Cmd K Cpl H × EditorSt) (k : Key) :
    Option (ViewSt Cmd K Cpl H × EditorSt) :=
  (handleKeyEvent E p.1 p.2 k).map (fun t => (t.1, t.2.1))

/-- C3 amended: in Normal or Select mode an unmodified digit key accumulates
the base-10 repeat count (the first digit seeds it, each subsequent digit
does `count*10 + digit` through `NonZeroUsize::new`); pressing '1','2','3'
from an empty count accumulates 123; and the count is cleared by a subsequent
non-digit key other than the repeat operator once it is dispatched through
the mode keymap and no multi-key sequence remains pending. -/
theorem count_accumulation_and_clearing {Cmd K Cpl H : Type} (E : Ext Cmd K Cpl H)
    (vs : ViewSt Cmd K Cpl H) (ed : EditorSt)
    (hm : ed.mode = .Normal ∨ ed.mode = .Select)
    (hn : vs.onNextKey = none)
    (hc : ed.closeRequested = false)
    (h0 : ed.count = none) :
    (∀ (c : Char) (d : Nat) (ed' : EditorSt), ed'.mode = ed.mode →
      ed'.closeRequested = false →
      digitOf (Key.mk (.char c) false false false) = some d →
      ∃ ed'', handleKeyEvent E vs ed' (Key.mk (.char c) false false false) =
        some (vs, ed'', .consumed false) ∧
        ed''.count = nonZeroNew (match ed'.count with | none => d | some k => k * 10 + d) ∧
        ed''.mode = ed'.mode ∧ ed''.closeRequested = false) ∧
    (∃ p : ViewSt Cmd K Cpl H × EditorSt,
      [Key.mk (.char '1') false false false, Key.mk (.char '2') false false false,
        Key.mk (.char '3') false false false].foldlM (pressKey E) (vs, ed) = some p ∧
      p.2.count = some 123) ∧
    (∀ (mode : Mode) (cxt : CmdCtx H) (ev : Key),
      digitOf ev = none →
      ¬(unmodifiedChar ev = some '.' ∧ E.keymapPending vs.keymaps = []) →
      E.keymapPending (commandModeStep E mode vs cxt ev).1.keymaps = [] →
      (commandModeStep E mode vs cxt ev).2.editor.count = none) := by
  have step : ∀ (c : Char) (d : Nat) (ed' : EditorSt), ed'.mode = ed.mode →
      ed'.closeRequested = false →
      digitOf (Key.mk (.char c) false false false) = some d →
      ∃ ed'', handleKeyEvent E vs ed' (Key.mk (.char c) false false false) =
        some (vs, ed'', .consumed false) ∧
        ed''.count = nonZeroNew (match ed'.count with | none => d | some k => k * 10 + d) ∧
        ed''.mode = ed'.mode ∧ ed''.closeRequested = false := by
    intro c d ed' hmode' hclose' hd
    refine ⟨appendChangesToHistory
        { digitEditor ed' d with views := E.ensureViews (digitEditor ed' d) },
      handleKeyEvent_digit E vs ed' c d (hmode' ▸ hm) hn hclose' hd, ?_, rfl, hclose'⟩
    simp [appendChangesToHistory, digitEditor]
  refine ⟨step, ?_, ?_⟩
  · obtain ⟨ed1, e1, c1, m1, cl1⟩ := step '1' 1 ed rfl hc (by decide)
    obtain ⟨ed2, e2, c2, m2, cl2⟩ := step '2' 2 ed1 m1 cl1 (by decide)
    obtain ⟨ed3, e3, c3, m3, cl3⟩ := step '3' 3 ed2 (m2.trans m1) cl2 (by decide)
    rw [h0] at c1
    rw [c1] at c2
    rw [show nonZeroNew 1 = some 1 from rfl] at c2
    rw [c2] at c3
    rw [show nonZeroNew (1 * 10 + 2) = some 12 from rfl] at c3
    refine ⟨(vs, ed3), ?_, by simpa using c3⟩
    simp [List.foldlM, pressKey, e1, e2, e3]
  · intro mode cxt ev hdig hdot hpend
    simp only [commandModeStep, hdig] at hpend ⊢
    rw [if_neg hdot] at hpend ⊢
    split at hpend
    · rename_i hcond
      rw [if_pos hcond]
    · rename_i hcond
      exact absurd hpend hcond

/-- Witness for C3 at a concrete instantiation: a non-digit, non-repeat key
('x') dispatched through the mode keymap with no pending sequence clears an
accumulated count. -/
theorem count_accumulation_witness :
    (commandModeStep extUnit .Normal vsUnit
      ⟨{ edSample with count := some 7 }, none, none, none, false⟩
      (Key.mk (.char 'x') false false false)).2.editor.count = none :=
  (count_accumulation_and_clearing extUnit vsUnit edSample (Or.inl rfl) rfl rfl rfl).2.2
    .Normal ⟨{ edSample with count := some 7 }, none, none, none, false⟩
    (Key.mk (.char 'x') false false false) (by decide) (by decide) (by decide)

/-- C10: with no count accumulated, the digit key '0' leaves the count unset
(`NonZeroUsize::new(0)` is `None`), while as a subsequent digit of an
already-started positive count it multiplies the count by ten. -/
theorem zero_digit_no_seed {Cmd K Cpl H : Type} (E : Ext Cmd K Cpl H) (mode : Mode)
    (vs : ViewSt Cmd K Cpl H) (cxt : CmdCtx H) (c : Nat) :
    (cxt.editor.count = none →
      (commandModeStep E mode vs cxt
        (Key.mk (.char '0') false false false)).2.editor.count = none) ∧
    (cxt.editor.count = some c → 0 < c →
      (commandModeStep E mode vs cxt
        (Key.mk (.char '0') false false false)).2.editor.count = some (c * 10)) := by
  have hd : digitOf (Key.mk (.char '0') false false false) = some 0 := by decide
  constructor
  · intro h
    simp [commandModeStep, hd, h, nonZeroNew]
  · intro h hcpos
    simp only [commandModeStep, hd, h, nonZeroNew]
    rw [if_neg (by omega)]
    simp

/-- Witness for C10: from an empty count '0' leaves the count unset; from an
accumulated count 12 it yields 120. -/
theorem zero_digit_no_seed_witness :
    (commandModeStep extUnit .Normal vsUnit ⟨edSample, none, none, none, false⟩
      (Key.mk (.char '0') false false false)).2.editor.count = none ∧
    (commandModeStep extUnit .Normal vsUnit
      ⟨{ edSample with count := some 12 }, none, none, none, false⟩
      (Key.mk (.char '0') false false false)).2.editor.count = some 120 :=
  ⟨(zero_digit_no_seed extUnit .Normal vsUnit ⟨edSample, none, none, none, false⟩ 1).1 rfl,
   by
    have h := (zero_digit_no_seed extUnit .Normal vsUnit
      ⟨{ edSample with count := some 12 }, none, none, none, false⟩ 12).2 rfl (by decide)
    simpa using h⟩

/-- C9: when the wheel-scroll position hit-tests to some view, handling the
event leaves `editor.tree.focus` exactly as it was, consumes the event, and
scrolls the hit view by `config.scroll_lines.abs()` lines in the wheel
direction, leaving every other view untouched. -/
theorem wheel_scroll_restores_focus (hitTest : Nat → Nat → Nat → Option (Nat × Nat))
    (ed : EditorSt) (ev : MouseScrollEvent) (vid : Nat)
    (h : (ed.views.map Prod.fst).findSome?
      (fun v => (hitTest v ev.row ev.col).map (fun _ => v)) = some vid) :
    (handleMouseScroll hitTest ed ev).1.focus = ed.focus ∧
    (handleMouseScroll hitTest ed ev).2 = true ∧
    (handleMouseScroll hitTest ed ev).1.views = ed.views.map (fun v =>
      if v.1 = vid then
        (v.1, if ev.up then v.2 - ed.scrollLines.natAbs else v.2 + ed.scrollLines.natAbs)
      else v) := by
  unfold handleMouseScroll
  rw [h]
  refine ⟨rfl, rfl, ?_⟩
  cases hu : ev.up <;> simp [scrollCommand]

/-- Witness for C9: two views, pointer over view 1, wheel down with
`scroll_lines = -3`; focus stays on view 0 and view 1 scrolls down 3
lines. -/
theorem wheel_scroll_restores_focus_witness :
    (handleMouseScroll (fun vid r c => if vid = 1 then some (r, c) else none)
      { edSample with views := [(0, 5), (1, 9)] } (MouseScrollEvent.mk false 2 2)).1.focus =
      ({ edSample with views := [(0, 5), (1, 9)] } : EditorSt).focus ∧
    (handleMouseScroll (fun vid r c => if vid = 1 then some (r, c) else none)
      { edSample with views := [(0, 5), (1, 9)] } (MouseScrollEvent.mk false 2 2)).2 = true :=
  ⟨(wheel_scroll_restores_focus (fun vid r c => if vid = 1 then some (r, c) else none)
      { edSample with views := [(0, 5), (1, 9)] } (MouseScrollEvent.mk false 2 2) 1
      (by decide)).1,
   (wheel_scroll_restores_focus (fun vid r c => if vid = 1 then some (r, c) else none)
      { edSample with views := [(0, 5), (1, 9)] } (MouseScrollEvent.mk false 2 2) 1
      (by decide)).2.1⟩

/-- C7: for a dispatched key event that does not close the editor, a
Normal→Insert mode change records the triggering command (the command the
Normal-mode keymap resolves the key to) as the last-insert command and clears
the replayed key buffer, while an Insert→Normal change discards the
completion overlay and commits the pending document changes of this dispatch
as one history checkpoint. -/
theorem mode_transition_side_effects {Cmd K Cpl H : Type} (E : Ext Cmd K Cpl H)
    (vs : ViewSt Cmd K Cpl H) (ed : EditorSt) (k : Key)
    (vs' : ViewSt Cmd K Cpl H) (ed' : EditorSt) (r : EvtResult)
    (h : handleKeyEvent E vs ed k = some (vs', ed', r))
    (hclose : ed'.closeRequested = false) :
    (ed.mode = .Normal → ed'.mode = .Insert →
      vs'.lastInsertKeys = [] ∧
      ∃ p s k2, E.keymapGet .Normal p (canonicalizeKey k) =
        (.Matched vs'.lastInsertCmd, s, k2)) ∧
    (ed.mode = .Insert → ed'.mode = .Normal →
      vs'.completion = none ∧
      ed'.historyCommits = (dispatchKey E vs ed k).2.editor.historyCommits + 1) := by
  constructor
  · intro hN hI
    simp only [handleKeyEvent, postKey, appendChangesToHistory, hN] at h
    cases hcr : (dispatchKey E vs ed k).2.editor.closeRequested with
    | true =>
      simp only [hcr, if_true] at h
      obtain ⟨rfl, rfl, rfl⟩ := h
      rw [hcr] at hclose
      exact absurd hclose (by decide)
    | false =>
      simp only [hcr, Bool.false_eq_true, if_false] at h
      rcases e2 : (dispatchKey E vs ed k).2.editor.mode with _ | _ | _ <;>
        simp only [e2, reduceCtorEq, ne_eq, not_false_eq_true, not_true_eq_false,
          if_true, if_false, reduceIte] at h
      · obtain ⟨rfl, rfl, rfl⟩ := h
        simp [e2] at hI
      · rcases e3 : (E.keymapGet .Normal (dispatchKey E vs ed k).1.keymaps
            (canonicalizeKey k)).1 with cmd | _ | _ | _ | _ <;>
          simp only [e3, reduceCtorEq] at h
        · obtain ⟨rfl, rfl, rfl⟩ := h
          refine ⟨rfl, (dispatchKey E vs ed k).1.keymaps,
            (E.keymapGet .Normal (dispatchKey E vs ed k).1.keymaps (canonicalizeKey k)).2.1,
            (E.keymapGet .Normal (dispatchKey E vs ed k).1.keymaps (canonicalizeKey k)).2.2,
            ?_⟩
          rw [← e3]
      · obtain ⟨rfl, rfl, rfl⟩ := h
        simp [e2] at hI
  · intro hI hN
    simp only [handleKeyEvent, postKey, appendChangesToHistory, hI] at h
    cases hcr : (dispatchKey E vs ed k).2.editor.closeRequested with
    | true =>
      simp only [hcr, if_true] at h
      obtain ⟨rfl, rfl, rfl⟩ := h
      rw [hcr] at hclose
      exact absurd hclose (by decide)
    | false =>
      simp only [hcr, Bool.false_eq_true, if_false] at h
      rcases e2 : (dispatchKey E vs ed k).2.editor.mode with _ | _ | _ <;>
        simp only [e2, reduceCtorEq, ne_eq, not_false_eq_true, not_true_eq_false,
          if_true, if_false, reduceIte] at h
      · obtain ⟨rfl, rfl, rfl⟩ := h
        exact ⟨rfl, rfl⟩
      · obtain ⟨rfl, rfl, rfl⟩ := h
        simp [e2] at hN
      · obtain ⟨rfl, rfl, rfl⟩ := h
        simp [e2] at hN

/-- External collaborators whose keymap always matches a no-op command that
switches the editor to Insert mode. -/
def extToInsert : Ext Unit Unit Unit Unit :=
  { extUnit with
    keymapGet := fun _ _ _ => (.Matched (), false, ()),
    exec := fun _ c => { c with editor := { c.editor with mode := .Insert } } }

/-- External collaborators whose keymap always matches a no-op command that
switches the editor to Normal mode. -/
def extToNormal : Ext Unit Unit Unit Unit :=
  { extUnit with
    keymapGet := fun _ _ _ => (.Matched (), false, ()),
    exec := fun _ c => { c with editor := { c.editor with mode := .Normal } } }

/-- An `EditorView` state in Insert mode with an open completion overlay. -/
def vsIns : ViewSt Unit Unit Unit Unit := ⟨(), none, (), [], some ()⟩

/-- A sample editor state in Insert mode. -/
def edIns : EditorSt := { edSample with mode := .Insert }

/-- An `EditorView` state with a non-empty replay buffer. -/
def vsN : ViewSt Unit Unit Unit Unit :=
  ⟨(), none, (), [Key.mk (.char 'q') false false false], none⟩

/-- Witness for C7: an 'i' key whose command enters Insert mode clears the
replay buffer, and an escape key whose command returns to Normal mode leaves
no completion overlay and commits exactly one history checkpoint. -/
theorem mode_transition_witness :
    ((⟨(), none, (), [], none⟩ : ViewSt Unit Unit Unit Unit).lastInsertKeys = []) ∧
    ((⟨(), none, (), [Key.mk .esc false false false], none⟩ :
        ViewSt Unit Unit Unit Unit).completion = none ∧
      (⟨.Normal, none, none, false, false, false, 1, false, false, 0, [(0, 0)], 3⟩ :
        EditorSt).historyCommits =
        (dispatchKey extToNormal vsIns edIns
          (Key.mk .esc false false false)).2.editor.historyCommits + 1) :=
  ⟨((mode_transition_side_effects extToInsert vsN edSample
      (Key.mk (.char 'i') false false false)
      ⟨(), none, (), [], none⟩
      ⟨.Insert, none, none, false, false, false, 0, false, true, 0, [(0, 0)], 3⟩
      (.consumed false) (by decide) rfl).1 rfl rfl).1,
   (mode_transition_side_effects extToNormal vsIns edIns (Key.mk .esc false false false)
      ⟨(), none, (), [Key.mk .esc false false false], none⟩
      ⟨.Normal, none, none, false, false, false, 1, false, false, 0, [(0, 0)], 3⟩
      (.consumed false) (by decide) rfl).2 rfl rfl⟩

end Helix
